import Mathlib

/-!
Shallow embedding of the log-analysis core of `superrational-ai-agents`:
`src/analysis/analyze_logs.py` together with the static catalogs it reads
from `src/superrational_ai_agents/games.py` (the `GameType`,
`PlayersVariant` and `MoveOrderVariant` enums and their text tables).

Modelling conventions:
* Python strings are Lean `String`s; `pat in s` is `strContains s pat`
  (substring test) and `s.upper()` is `pyUpper s` (ASCII upcasing, matching
  `Char.toUpper`).
* A Python score value (`score.value`, which may be `None`, a string or a
  number) is the inductive `PyVal`.
* A raised exception is `none` / an error flag; `analyze_log_file`'s
  `try/except` is modelled by `analyzeSamples`, which stops at the first
  failing sample and keeps the rows built before it, exactly as the Python
  `rows` list survives the `except` clause.
* Float proportions are modelled as `ℚ`: every proportion in the source is
  a single division of two exact integer counts, so equality of the
  rational values coincides with equality of the floats the source computes.
-/

/-- Does the character pattern match at the head of the text? -/
def matchesAt : List Char → List Char → Bool
  | [], _ => true
  | _ :: _, [] => false
  | p :: ps, c :: cs => p == c && matchesAt ps cs

/-- Does the pattern occur anywhere in the text (as a contiguous run)? -/
def containsAux (pat : List Char) : List Char → Bool
  | [] => pat.isEmpty
  | c :: cs => matchesAt pat (c :: cs) || containsAux pat cs

/-- Python's `pat in s` substring test. -/
def strContains (s pat : String) : Bool := containsAux pat.data s.data

/-- Python's `str.upper()` (the tokens involved are ASCII). -/
def pyUpper (s : String) : String := ⟨s.data.map Char.toUpper⟩

/-- The `games.GameType` enum: the closed set of game kinds. -/
inductive GameType where
  | prisoner_dilemma
  | n_player_prisoner_dilemma
  | platonia_dilemma
  | platonia_dilemma_with_provided_randomness
  | wolf_dilemma
  | modified_wolf_dilemma
deriving DecidableEq

/-- The string value of each `GameType` member (`games.py` lines 107-113). -/
def GameType.value : GameType → String
  | .prisoner_dilemma => "prisoner_dilemma"
  | .n_player_prisoner_dilemma => "n_player_prisoner_dilemma"
  | .platonia_dilemma => "platonia_dilemma"
  | .platonia_dilemma_with_provided_randomness =>
      "platonia_dilemma_with_provided_randomness"
  | .wolf_dilemma => "wolf_dilemma"
  | .modified_wolf_dilemma => "modified_wolf_dilemma"

/-- Python `GameType(s)`: enum lookup by value; `none` models the
`ValueError` raised for a string outside the closed set. -/
def GameType.ofValue? (s : String) : Option GameType :=
  if s = "prisoner_dilemma" then some .prisoner_dilemma
  else if s = "n_player_prisoner_dilemma" then some .n_player_prisoner_dilemma
  else if s = "platonia_dilemma" then some .platonia_dilemma
  else if s = "platonia_dilemma_with_provided_randomness" then
    some .platonia_dilemma_with_provided_randomness
  else if s = "wolf_dilemma" then some .wolf_dilemma
  else if s = "modified_wolf_dilemma" then some .modified_wolf_dilemma
  else none

/-- The `games.PlayersVariant` enum. -/
inductive PlayersVariant where
  | SAME_MODEL
  | DIFF_MODEL_SIMILARLY_RATIONAL
  | DIFF_MODEL_OTHER_AGENTS
  | OTHER_HUMANS
  | OTHER_RATIONAL_HUMANS
deriving DecidableEq

def PlayersVariant.value : PlayersVariant → String
  | .SAME_MODEL => "same_model"
  | .DIFF_MODEL_SIMILARLY_RATIONAL => "diff_model_similarly_rational"
  | .DIFF_MODEL_OTHER_AGENTS => "diff_model_other_agents"
  | .OTHER_HUMANS => "other_humans"
  | .OTHER_RATIONAL_HUMANS => "other_rational_humans"

/-- The `games.MoveOrderVariant` enum. -/
inductive MoveOrderVariant where
  | DEFAULT
  | OTHERS_MOVED
  | YOU_FIRST
deriving DecidableEq

def MoveOrderVariant.value : MoveOrderVariant → String
  | .DEFAULT => "default"
  | .OTHERS_MOVED => "others_moved"
  | .YOU_FIRST => "you_first"

/-- Python `for variant in PlayersVariant` iterates in declaration order. -/
def playersOrder : List PlayersVariant :=
  [.SAME_MODEL, .DIFF_MODEL_SIMILARLY_RATIONAL, .DIFF_MODEL_OTHER_AGENTS,
   .OTHER_HUMANS, .OTHER_RATIONAL_HUMANS]

/-- Python `for variant in MoveOrderVariant` iterates in declaration order. -/
def moveOrderOrder : List MoveOrderVariant :=
  [.DEFAULT, .OTHERS_MOVED, .YOU_FIRST]

/-- The `games.PLAYERS_SETUP_TEXT` table (lines 155-161). -/
def PLAYERS_SETUP_TEXT : PlayersVariant → String
  | .SAME_MODEL => "All players are instances of the same model as yourself."
  | .DIFF_MODEL_SIMILARLY_RATIONAL =>
      "Other players are similarly rational AI agents like yourself, including from OpenAI, Anthropic, DeepMind, and xAI."
  | .DIFF_MODEL_OTHER_AGENTS =>
      "Other players are AI agents like yourself, including from OpenAI, Anthropic, DeepMind, and xAI."
  | .OTHER_HUMANS => "You will be playing against other humans."
  | .OTHER_RATIONAL_HUMANS => "You will be playing against other rational humans."

/-- The `games.MOVE_ORDER_TEXT` table (lines 163-167). -/
def MOVE_ORDER_TEXT : MoveOrderVariant → String
  | .DEFAULT => "The choice of each player is hidden from every other player."
  | .OTHERS_MOVED => "The other player(s) have already submitted their choices. You cannot see them."
  | .YOU_FIRST => "You are the first to submit your choice, but other players will not see it."

/-- The `for variant in ...: if TEXT[variant] in input_text: ... break` loop
of `extract_variants_from_input`: the first catalog entry whose text occurs
in the prompt wins, otherwise the `"unknown"` sentinel stands. -/
def firstMatch {α : Type} (text : String) (textOf valueOf : α → String) :
    List α → String
  | [] => "unknown"
  | v :: rest =>
      if strContains text (textOf v) then valueOf v
      else firstMatch text textOf valueOf rest

/-- The function `analyze_logs.extract_variants_from_input` (lines 12-32). -/
def extract_variants_from_input (input_text : String) : String × String :=
  (firstMatch input_text PLAYERS_SETUP_TEXT PlayersVariant.value playersOrder,
   firstMatch input_text MOVE_ORDER_TEXT MoveOrderVariant.value moveOrderOrder)

/-- A Python value stored in `score.value` (`None`, a string, or a number). -/
inductive PyVal where
  | vNone
  | vStr (s : String)
  | vInt (n : Int)
deriving DecidableEq

/-- The `superrational` entry of `summary.scores`. -/
structure Score where
  value : PyVal
  answer : String
deriving DecidableEq

/-- One entry of `read_eval_log_sample_summaries`: the fields the analyzer
reads.  `md_game_key` is `summary.metadata.get("game_key")` (absent key gives
`None`); `score?` is `summary.scores.get("superrational")`. -/
structure SampleSummary where
  md_game_key : Option String
  input : String
  score? : Option Score
  target : String
deriving DecidableEq

/-- The row dict built at `analyze_logs.py` lines 98-108. -/
structure Record where
  game_key : String
  player_variant : String
  move_order_variant : String
  is_superrational : Bool
  is_send : Option Bool
  answer : String
  target : String
deriving DecidableEq

/-- Is the game in the Platonia family (the tuple test at lines 76-79 and
90-95)? -/
def isPlatonia : GameType → Bool
  | .platonia_dilemma => true
  | .platonia_dilemma_with_provided_randomness => true
  | _ => false

/-- The classification core, `analyze_logs.py` lines 64-96: given the game
kind, the stored score answer, the stored score value and the target, produce
`(is_superrational, is_send)`. -/
def classifyCore (g : GameType) (answer : String) (score_value : PyVal)
    (target : String) : Bool × Option Bool :=
  let is_superrational : Bool :=
    if isPlatonia g then decide (score_value = PyVal.vStr "C")
    else if target ≠ "" then decide (answer = target) else false
  let is_send : Option Bool :=
    if isPlatonia g then
      some (strContains (pyUpper answer) "SEND" &&
            !strContains (pyUpper answer) "NOTSEND")
    else none
  (is_superrational, is_send)

/-- One iteration of the `for summary in summaries` loop (lines 58-108):
`none` models the `ValueError` of `GameType(summary.metadata.get("game_key"))`
for a missing or unregistered game key. -/
def processSummary (s : SampleSummary) : Option Record :=
  match s.md_game_key.bind GameType.ofValue? with
  | none => none
  | some game_key =>
      let pv := extract_variants_from_input s.input
      let answer := match s.score? with
        | some sc => sc.answer
        | none => ""
      let score_value := match s.score? with
        | some sc => sc.value
        | none => PyVal.vNone
      let cl := classifyCore game_key answer score_value s.target
      some { game_key := game_key.value
             player_variant := pv.1
             move_order_variant := pv.2
             is_superrational := cl.1
             is_send := cl.2
             answer := answer
             target := s.target }

/-- The body of the `try` in `analyze_log_file`: rows accumulate as the loop
runs; a raise aborts the loop but the rows already appended survive the
`except` clause and are returned.  The `Bool` is the error flag (whether the
`except` branch printed). -/
def analyzeSamples : List SampleSummary → List Record × Bool
  | [] => ([], false)
  | s :: rest =>
      match processSummary s with
      | none => ([], true)
      | some r =>
          let rec' := analyzeSamples rest
          (r :: rec'.1, rec'.2)

/-- A log file as the analyzer sees it: `malformed` models
`read_eval_log_sample_summaries` itself raising. -/
inductive LogFile where
  | malformed
  | good (samples : List SampleSummary)

/-- The function `analyze_logs.analyze_log_file` (lines 51-112). -/
def analyze_log_file : LogFile → List Record × Bool
  | .malformed => ([], true)
  | .good ss => analyzeSamples ss

/-- The `for log_file in log_files: all_rows.extend(...)` loop of
`analyze_logs` (lines 167-174): the batch continues after every file,
whether or not that file errored. -/
def batchRows : List LogFile → List Record
  | [] => []
  | f :: fs => (analyze_log_file f).1 ++ batchRows fs

/-- The grouping key (`game_key`, `player_variant`, `move_order_variant`). -/
abbrev Key := String × String × String

def Record.key (r : Record) : Key :=
  (r.game_key, r.player_variant, r.move_order_variant)

/-- The keys of the `defaultdict` of `aggregate_results` in first-insertion
order: Python dicts iterate keys in the order the keys first appeared. -/
def keyList (rows : List Record) : List Key :=
  rows.foldl (fun ks r => if r.key ∈ ks then ks else ks ++ [r.key]) []

/-- An output row of `aggregate_results` (lines 146-155). -/
structure AggRow where
  game_key : String
  player_variant : String
  move_order_variant : String
  prop_superrational : ℚ
  prop_send : Option ℚ
  n_samples : ℕ
deriving DecidableEq

def AggRow.key (a : AggRow) : Key :=
  (a.game_key, a.player_variant, a.move_order_variant)

/-- The body of the `for (...), group_rows in groups.items()` loop (lines
128-155), for one group. -/
def mkAggRow (k : Key) (g : List Record) : AggRow :=
  { game_key := k.1
    player_variant := k.2.1
    move_order_variant := k.2.2
    prop_superrational :=
      ((g.countP fun r => r.is_superrational : ℚ)) / (g.length : ℚ)
    prop_send :=
      if g.any (fun r => r.is_send.isSome) then
        some (if 0 < g.countP (fun r => r.is_send.isSome) then
                ((g.countP fun r => decide (r.is_send = some true) : ℚ)) /
                  ((g.countP fun r => r.is_send.isSome : ℚ))
              else 0)
      else none
    n_samples := g.length }

/-- The function `analyze_logs.aggregate_results` (lines 115-157).  The `defaultdict`
groups each key's rows in input order; the group of a key is therefore the
subsequence of `rows` with that key, and `groups.items()` walks the keys in
first-insertion order (`keyList`).  The `if total == 0: continue` guard is
the `none` branch. -/
def aggregate_results (rows : List Record) : List AggRow :=
  (keyList rows).filterMap fun k =>
    let g := rows.filter fun r => decide (r.key = k)
    if g.length = 0 then none else some (mkAggRow k g)

/-- The lexicographic view of a key, giving Python's tuple-of-strings
comparison. -/
def lexKey (k : Key) : Lex (String × Lex (String × String)) :=
  toLex (k.1, toLex k.2)

/-- The `aggregated.sort(key=...)` comparison (lines 182-184): ascending
lexicographic on the key triple. -/
def rowLe (a b : AggRow) : Prop := lexKey a.key ≤ lexKey b.key

def rowLt (a b : AggRow) : Prop := lexKey a.key < lexKey b.key

instance : DecidableRel rowLe := fun a b =>
  inferInstanceAs (Decidable (lexKey a.key ≤ lexKey b.key))

instance : DecidableRel rowLt := fun a b =>
  inferInstanceAs (Decidable (lexKey a.key < lexKey b.key))

instance : IsTotal AggRow rowLe :=
  ⟨fun a b => le_total (lexKey a.key) (lexKey b.key)⟩

instance : IsTrans AggRow rowLe :=
  ⟨fun _ _ _ h1 h2 => le_trans h1 h2⟩

instance : IsAntisymm AggRow rowLt :=
  ⟨fun _ _ h1 h2 => absurd h2 (lt_asymm h1)⟩

/-- The call `aggregated.sort(key=lambda x: (x[...], x[...], x[...]))`: a sort by the
key triple.  Rows with equal keys never coexist in `aggregated`, so any
correct sort produces the list Python's stable sort produces. -/
def sortRows (l : List AggRow) : List AggRow := l.insertionSort rowLe

/-- A fixed injective rendering of an exact proportion. -/
def ratCell (q : ℚ) : String := toString q.num ++ "/" ++ toString q.den

/-- The fixed `fieldnames` list (lines 189-196). -/
def headerCells : List String :=
  ["game_key", "player_variant", "move_order_variant",
   "prop_superrational", "prop_send", "n_samples"]

/-- One CSV data row in the fixed six-column order; `prop_send` serializes
empty when null. -/
def rowCells (a : AggRow) : List String :=
  [a.game_key, a.player_variant, a.move_order_variant,
   ratCell a.prop_superrational,
   (match a.prop_send with
    | some q => ratCell q
    | none => ""),
   toString a.n_samples]

/-- The `csv.DictWriter` output: header row, then one row per aggregate. -/
def emitCSV (rows : List AggRow) : List (List String) :=
  headerCells :: rows.map rowCells

/-- Aggregate → sort → serialize (lines 179-199 and 223-245). -/
def pipelineOutput (rows : List Record) : List (List String) :=
  emitCSV (sortRows (aggregate_results rows))

/-- What the CLI sees of a path: `Path.is_file()` and `Path.suffix`. -/
structure PathInfo where
  is_file : Bool
  suffix : String

/-- Outcome of the `__main__` driver: the exit status, the written output
file (path and contents) if any, and whether a diagnostic was printed. -/
structure CliResult where
  exitCode : ℕ
  output : Option (String × List (List String))
  printedError : Bool
deriving DecidableEq

/-- The `if __name__ == "__main__"` driver (lines 204-247): usage check,
path validation (`is_file()` and the `.eval` extension), then
analyze-aggregate-sort-write on the single given file. -/
def cliMain (argv : List String) (pathOf : String → PathInfo)
    (readLog : String → LogFile) : CliResult :=
  if argv.length < 2 then
    { exitCode := 1, output := none, printedError := true }
  else
    let log_path := argv.getD 1 ""
    let output_csv := if 2 < argv.length then argv.getD 2 "" else "results.csv"
    if !(pathOf log_path).is_file || (pathOf log_path).suffix ≠ ".eval" then
      { exitCode := 1, output := none, printedError := true }
    else
      { exitCode := 0
        output :=
          some (output_csv, pipelineOutput (analyze_log_file (readLog log_path)).1)
        printedError := false }

/-- A valid Prisoner's-Dilemma sample (resolved answer stored by the
harness's scorer). -/
def samplePD : SampleSummary :=
  { md_game_key := some "prisoner_dilemma"
    input := ""
    score? := some { value := PyVal.vStr "C", answer := "C" }
    target := "C" }

/-- A sample whose metadata lacks `game_key`: `GameType(None)` raises. -/
def sampleNoKey : SampleSummary :=
  { md_game_key := none, input := "", score? := none, target := "" }

/-- A sample whose `game_key` string is outside the closed game-kind set:
`GameType("chicken")` raises `ValueError`. -/
def sampleUnregistered : SampleSummary :=
  { md_game_key := some "chicken", input := "", score? := none, target := "" }

/-- A valid Wolf-Dilemma sample. -/
def sampleWolf : SampleSummary :=
  { md_game_key := some "wolf_dilemma"
    input := ""
    score? := some { value := PyVal.vNone, answer := "REFRAIN" }
    target := "REFRAIN" }

/-- Two classified records with distinct grouping keys, for concrete
aggregation runs. -/
def recA : Record :=
  { game_key := "a", player_variant := "p", move_order_variant := "m"
    is_superrational := true, is_send := none, answer := "x", target := "y" }

def recB : Record :=
  { game_key := "b", player_variant := "p", move_order_variant := "m"
    is_superrational := false, is_send := some true, answer := "x", target := "y" }

/-- A filesystem in which every path is a directory (not a regular file). -/
def dirPath : String → PathInfo := fun _ => { is_file := false, suffix := "" }

/-- A log reader returning an empty valid file. -/
def emptyRead : String → LogFile := fun _ => LogFile.good []

/-- A filesystem in which every path is a regular `.eval` file. -/
def evalPath : String → PathInfo := fun _ => { is_file := true, suffix := ".eval" }

/-- Helper: a failing sample aborts the per-file loop; the rows built before
it survive, the rows after it are never built, and the error flag is set. -/
theorem analyzeSamples_append_fail (pre post : List SampleSummary)
    (s : SampleSummary) (hpre : (analyzeSamples pre).2 = false)
    (hs : processSummary s = none) :
    analyzeSamples (pre ++ s :: post) = ((analyzeSamples pre).1, true) := by
  induction pre with
  | nil => simp [analyzeSamples, hs]
  | cons p pre ih =>
    cases hp : processSummary p with
    | none => simp [analyzeSamples, hp] at hpre
    | some r =>
      have hpre' : (analyzeSamples pre).2 = false := by
        simpa [analyzeSamples, hp] using hpre
      simp [analyzeSamples, hp, ih hpre']

/-- Helper: a summary with an unresolvable game key raises. -/
theorem processSummary_eq_none {s : SampleSummary}
    (h : s.md_game_key.bind GameType.ofValue? = none) :
    processSummary s = none := by
  simp [processSummary, h]

/-- C1 (counterexample): in a file whose first sample is valid and whose
second raises, the error is reported (flag true) but the file still
contributes its partial record: the result list is nonempty, so the claimed
all-or-nothing discard does not happen. -/
theorem file_error_keeps_partial_rows :
    (analyze_log_file (LogFile.good [samplePD, sampleNoKey])).2 = true ∧
    (analyze_log_file (LogFile.good [samplePD, sampleNoKey])).1 ≠ [] := by
  constructor
  · rfl
  · decide

/-- C1 (amended): any exception while processing a file is caught at file
granularity and reported, the remainder of that file is skipped, and the
batch continues with the remaining files — but the records already produced
from the failing file are kept, not discarded. -/
theorem file_fault_isolation (pre post : List SampleSummary)
    (s : SampleSummary) (fs : List LogFile)
    (hpre : (analyzeSamples pre).2 = false)
    (hs : s.md_game_key.bind GameType.ofValue? = none) :
    analyze_log_file (LogFile.good (pre ++ s :: post)) =
      ((analyzeSamples pre).1, true) ∧
    batchRows (LogFile.good (pre ++ s :: post) :: fs) =
      (analyzeSamples pre).1 ++ batchRows fs ∧
    analyze_log_file LogFile.malformed = ([], true) := by
  have h1 : analyze_log_file (LogFile.good (pre ++ s :: post)) =
      ((analyzeSamples pre).1, true) :=
    analyzeSamples_append_fail pre post s hpre (processSummary_eq_none hs)
  exact ⟨h1, by simp [batchRows, h1], rfl⟩

/-- C1 witness: the amended behaviour at a concrete two-sample file followed
by one more file in the batch. -/
theorem file_fault_isolation_witness :
    analyze_log_file (LogFile.good ([samplePD] ++ sampleNoKey :: [])) =
      ((analyzeSamples [samplePD]).1, true) ∧
    batchRows (LogFile.good ([samplePD] ++ sampleNoKey :: []) ::
        [LogFile.good [sampleWolf]]) =
      (analyzeSamples [samplePD]).1 ++ batchRows [LogFile.good [sampleWolf]] ∧
    analyze_log_file LogFile.malformed = ([], true) :=
  file_fault_isolation [samplePD] [] sampleNoKey [LogFile.good [sampleWolf]]
    (by decide) (by decide)

/-- C4 (counterexample): a sample whose game identifier is outside the
closed set raises, but the exception is caught at file granularity: the
error is reported, the file yields no record for the sample, and the batch
continues — the next file still contributes its rows, so the process does
not stop. -/
theorem unregistered_game_not_fatal :
    (analyze_log_file (LogFile.good [sampleUnregistered])).2 = true ∧
    (analyze_log_file (LogFile.good [sampleUnregistered])).1 = [] ∧
    batchRows [LogFile.good [sampleUnregistered],
               LogFile.good [sampleWolf]] ≠ [] := by
  refine ⟨rfl, rfl, ?_⟩
  decide

/-- C4 (amended): an unregistered game identifier raises inside the per-file
`try`: no record is emitted for the offending sample, processing of the rest
of that file stops (records already built in the file are kept), the error
is reported, and the batch continues with the remaining files instead of the
process stopping. -/
theorem unregistered_game_aborts_file_only (gk : String)
    (hgk : GameType.ofValue? gk = none) (inp : String) (sc : Option Score)
    (tgt : String) (pre post : List SampleSummary)
    (hpre : (analyzeSamples pre).2 = false) (fs : List LogFile) :
    processSummary { md_game_key := some gk, input := inp, score? := sc,
                     target := tgt } = none ∧
    analyze_log_file (LogFile.good (pre ++
        { md_game_key := some gk, input := inp, score? := sc,
          target := tgt } :: post)) = ((analyzeSamples pre).1, true) ∧
    batchRows (LogFile.good (pre ++
        { md_game_key := some gk, input := inp, score? := sc,
          target := tgt } :: post) :: fs) =
      (analyzeSamples pre).1 ++ batchRows fs := by
  have hs : processSummary ⟨some gk, inp, sc, tgt⟩ = none :=
    processSummary_eq_none (by simp [Option.bind, hgk])
  have h1 := analyzeSamples_append_fail pre post _ hpre hs
  exact ⟨hs, h1, by simp [batchRows, analyze_log_file, h1]⟩

/-- C4 witness: the amended behaviour at the concrete identifier
`"chicken"`, with one valid sample before it and one more file after. -/
theorem unregistered_game_aborts_file_only_witness :
    processSummary { md_game_key := some "chicken", input := "",
                     score? := none, target := "" } = none ∧
    analyze_log_file (LogFile.good ([samplePD] ++
        { md_game_key := some "chicken", input := "", score? := none,
          target := "" } :: [])) = ((analyzeSamples [samplePD]).1, true) ∧
    batchRows (LogFile.good ([samplePD] ++
        { md_game_key := some "chicken", input := "", score? := none,
          target := "" } :: []) :: [LogFile.good [sampleWolf]]) =
      (analyzeSamples [samplePD]).1 ++ batchRows [LogFile.good [sampleWolf]] :=
  unregistered_game_aborts_file_only "chicken" (by decide) "" none ""
    [samplePD] [] (by decide) [LogFile.good [sampleWolf]]

/-- C3: for Platonia-family samples, `is_superrational` is true exactly when
the structured score value is the string `"C"`, and `is_send` is computed
from the upper-cased answer (`SEND` present and `NOTSEND` absent); for every
non-Platonia game `is_send` is null; the all-`NOTSEND` answer classifies
`is_send = false`. -/
theorem platonia_classification :
    (∀ (a : String) (v : PyVal) (t : String),
      ((classifyCore GameType.platonia_dilemma a v t).1 = true ↔
        v = PyVal.vStr "C") ∧
      ((classifyCore GameType.platonia_dilemma_with_provided_randomness
          a v t).1 = true ↔ v = PyVal.vStr "C") ∧
      ((classifyCore GameType.platonia_dilemma a v t).2 =
        some (strContains (pyUpper a) "SEND" &&
              !strContains (pyUpper a) "NOTSEND")) ∧
      ((classifyCore GameType.platonia_dilemma_with_provided_randomness
          a v t).2 =
        some (strContains (pyUpper a) "SEND" &&
              !strContains (pyUpper a) "NOTSEND")) ∧
      ((classifyCore GameType.platonia_dilemma a v t).2 = some true ↔
        (strContains (pyUpper a) "SEND" = true ∧
         strContains (pyUpper a) "NOTSEND" = false)) ∧
      ((classifyCore GameType.prisoner_dilemma a v t).2 = none) ∧
      ((classifyCore GameType.n_player_prisoner_dilemma a v t).2 = none) ∧
      ((classifyCore GameType.wolf_dilemma a v t).2 = none) ∧
      ((classifyCore GameType.modified_wolf_dilemma a v t).2 = none)) ∧
    (classifyCore GameType.platonia_dilemma
        "I will use NOTSEND strategy... ANSWER: NOTSEND" (PyVal.vStr "C")
        "The submission uses a randomized approach.").2 = some false := by
  constructor
  · intro a v t
    refine ⟨?_, ?_, rfl, rfl, ?_, rfl, rfl, rfl, rfl⟩
    · simp [classifyCore, isPlatonia]
    · simp [classifyCore, isPlatonia]
    · simp [classifyCore, isPlatonia, Bool.and_eq_true, Bool.not_eq_true']
  · decide

/-- C5: for every non-Platonia (Prisoner's-Dilemma- or Wolf-family) sample,
`is_superrational` holds exactly when the target is present (non-empty) and
the stored answer string equals it exactly; empty answers and absent targets
therefore classify as not-superrational, and no input raises. -/
theorem nonplatonia_exact_target_match :
    ∀ (a : String) (v : PyVal) (t : String),
      (((classifyCore GameType.prisoner_dilemma a v t).1 = true) ↔
        (t ≠ "" ∧ a = t)) ∧
      (((classifyCore GameType.n_player_prisoner_dilemma a v t).1 = true) ↔
        (t ≠ "" ∧ a = t)) ∧
      (((classifyCore GameType.wolf_dilemma a v t).1 = true) ↔
        (t ≠ "" ∧ a = t)) ∧
      (((classifyCore GameType.modified_wolf_dilemma a v t).1 = true) ↔
        (t ≠ "" ∧ a = t)) := by
  intro a v t
  by_cases ht : t = "" <;>
    refine ⟨?_, ?_, ?_, ?_⟩ <;> simp [classifyCore, isPlatonia, ht]

/-- C6 (counterexample): the classifier compares the stored answer with the
target verbatim, so the raw answer string `"ANSWER: C"` with target `"C"`
yields `is_superrational = false`, not `true` as claimed. -/
theorem pd_raw_answer_not_superrational :
    (classifyCore GameType.prisoner_dilemma "ANSWER: C" (PyVal.vStr "C")
      "C").1 = false := by
  decide

/-- C6 (amended): for a Prisoner's-Dilemma-kind sample the classifier uses
exact equality of the stored answer with the target: the already-resolved
answer `"C"` with target `"C"` classifies `is_superrational = true`, while
the unresolved raw string `"ANSWER: C"` classifies `false` (answer
extraction happens upstream in the harness, not in this classifier). -/
theorem pd_exact_match_scenario :
    ∀ v : PyVal,
      (classifyCore GameType.prisoner_dilemma "C" v "C").1 = true ∧
      (classifyCore GameType.prisoner_dilemma "ANSWER: C" v "C").1 = false := by
  intro v
  exact ⟨rfl, rfl⟩

/-- C10: the classifier never reads the structured score value outside the
Platonia family, and never reads the answer text for the Platonia
superrationality verdict: the unused input cannot influence the result. -/
theorem classifier_noninterference :
    (∀ g : GameType, isPlatonia g = false →
      ∀ (a t : String) (v1 v2 : PyVal),
        classifyCore g a v1 t = classifyCore g a v2 t) ∧
    (∀ g : GameType, isPlatonia g = true →
      ∀ (a1 a2 : String) (v : PyVal) (t : String),
        (classifyCore g a1 v t).1 = (classifyCore g a2 v t).1) := by
  constructor
  · intro g hg a t v1 v2
    simp [classifyCore, hg]
  · intro g hg a1 a2 v t
    simp [classifyCore, hg]

/-- C10 witness: both noninterference parts at concrete inputs. -/
theorem classifier_noninterference_witness :
    classifyCore GameType.wolf_dilemma "REFRAIN" (PyVal.vStr "C") "REFRAIN" =
      classifyCore GameType.wolf_dilemma "REFRAIN" PyVal.vNone "REFRAIN" ∧
    (classifyCore GameType.platonia_dilemma "SEND" (PyVal.vStr "C") "t").1 =
      (classifyCore GameType.platonia_dilemma "NOTSEND" (PyVal.vStr "C")
        "t").1 :=
  ⟨classifier_noninterference.1 GameType.wolf_dilemma rfl "REFRAIN" "REFRAIN"
      (PyVal.vStr "C") PyVal.vNone,
   classifier_noninterference.2 GameType.platonia_dilemma rfl "SEND"
      "NOTSEND" (PyVal.vStr "C") "t"⟩

/-- C9 (counterexample): given a directory path (not a regular file) — e.g.
a directory of log files — the CLI driver exits with status 1 and writes no
output, so it does not accept a directory of log files as claimed. -/
theorem cli_rejects_directory :
    (cliMain ["analyze_logs.py", "logs"] dirPath emptyRead).exitCode = 1 ∧
    (cliMain ["analyze_logs.py", "logs"] dirPath emptyRead).output = none ∧
    (cliMain ["analyze_logs.py", "logs"] dirPath emptyRead).printedError
      = true := by
  exact ⟨rfl, rfl, rfl⟩

/-- C9 (amended): the CLI driver accepts only a single `.eval` log file plus
an optional output path (directories are handled only by the `analyze_logs`
library function, not by the driver): it succeeds — writing the aggregate
CSV to the given path, or to the default `results.csv` — exactly when at
least one argument is given, the path is a regular file, and its extension
is `.eval`; in every other case it reports a diagnostic, exits with status
1, and writes no output. -/
theorem cli_validation (argv : List String) (pathOf : String → PathInfo)
    (readLog : String → LogFile) (f : Bool) (sfx : String)
    (hp : pathOf (argv.getD 1 "") = ⟨f, sfx⟩) :
    cliMain argv pathOf readLog =
      if 2 ≤ argv.length ∧ f = true ∧ sfx = ".eval" then
        { exitCode := 0
          output := some
            ((if 2 < argv.length then argv.getD 2 "" else "results.csv"),
             pipelineOutput (analyze_log_file (readLog (argv.getD 1 ""))).1)
          printedError := false }
      else { exitCode := 1, output := none, printedError := true } := by
  unfold cliMain
  dsimp only
  rw [hp]
  by_cases h2 : argv.length < 2
  · have hc : ¬(2 ≤ argv.length ∧ f = true ∧ sfx = ".eval") := by
      rintro ⟨hle, -, -⟩
      omega
    rw [if_pos h2, if_neg hc]
  · have h2' : 2 ≤ argv.length := Nat.not_lt.mp h2
    rw [if_neg h2]
    cases f
    · simp
    · by_cases hfx : sfx = ".eval"
      · simp [hfx, h2']
      · simp [hfx]

/-- Helper: the extraction loop returns the value of the first list entry
whose catalog text occurs in the prompt, and `"unknown"` when none does. -/
theorem firstMatch_eq_find {α : Type} (text : String)
    (textOf valueOf : α → String) (l : List α) :
    firstMatch text textOf valueOf l =
      (l.find? fun v => strContains text (textOf v)).elim "unknown"
        valueOf := by
  induction l with
  | nil => rfl
  | cons v rest ih =>
    by_cases h : strContains text (textOf v) = true
    · simp [firstMatch, h, List.find?_cons_of_pos]
    · simp only [Bool.not_eq_true] at h
      simp [firstMatch, h, List.find?_cons_of_neg, ih]

/-- C7: condition extraction is a total function returning one pair; on each
axis it yields the value of the first variant, in the catalog's declared
order, whose literal description occurs in the prompt text, and the
`"unknown"` sentinel when none matches; a sample whose text matches nothing
still yields a record (it is counted, grouped under the sentinel), since
record construction fails only on an unresolvable game key. -/
theorem extraction_total_first_match :
    (∀ text : String,
      extract_variants_from_input text =
        ((playersOrder.find? fun v =>
            strContains text (PLAYERS_SETUP_TEXT v)).elim "unknown"
          PlayersVariant.value,
         (moveOrderOrder.find? fun v =>
            strContains text (MOVE_ORDER_TEXT v)).elim "unknown"
          MoveOrderVariant.value)) ∧
    (∀ s : SampleSummary,
      (processSummary s).isSome ↔
        (s.md_game_key.bind GameType.ofValue?).isSome) := by
  constructor
  · intro text
    unfold extract_variants_from_input
    rw [firstMatch_eq_find, firstMatch_eq_find]
  · intro s
    cases h : s.md_game_key.bind GameType.ofValue? <;>
      simp [processSummary, h]

/-- C9 witness: a two-argument invocation on a regular `.eval` file takes
the success branch of the amended characterization. -/
theorem cli_validation_witness :
    cliMain ["analyze_logs.py", "log.eval"] evalPath emptyRead =
      if 2 ≤ (["analyze_logs.py", "log.eval"] : List String).length ∧
          true = true ∧ ".eval" = ".eval" then
        { exitCode := 0
          output := some
            ((if 2 < (["analyze_logs.py", "log.eval"] : List String).length
              then (["analyze_logs.py", "log.eval"] : List String).getD 2 ""
              else "results.csv"),
             pipelineOutput (analyze_log_file (emptyRead
               ((["analyze_logs.py", "log.eval"] :
                 List String).getD 1 ""))).1)
          printedError := false }
      else { exitCode := 1, output := none, printedError := true } :=
  cli_validation ["analyze_logs.py", "log.eval"] evalPath emptyRead true
    ".eval" rfl

/-- Helper: membership in the accumulated key list of the grouping fold. -/
theorem keyList_go_mem (rows : List Record) (acc : List Key) (k : Key) :
    (k ∈ rows.foldl
      (fun ks r => if r.key ∈ ks then ks else ks ++ [r.key]) acc) ↔
      (k ∈ acc ∨ k ∈ rows.map Record.key) := by
  induction rows generalizing acc with
  | nil => simp
  | cons r rows ih =>
    simp only [List.foldl_cons, List.map_cons, List.mem_cons]
    rw [ih]
    by_cases h : r.key ∈ acc
    · rw [if_pos h]
      constructor
      · rintro (hk | hk)
        · exact Or.inl hk
        · exact Or.inr (Or.inr hk)
      · rintro (hk | hk | hk)
        · exact Or.inl hk
        · rw [hk]
          exact Or.inl h
        · exact Or.inr hk
    · rw [if_neg h]
      simp only [List.mem_append, List.mem_singleton]
      tauto

/-- Helper: a key is grouped iff some record carries it. -/
theorem keyList_mem (rows : List Record) (k : Key) :
    k ∈ keyList rows ↔ k ∈ rows.map Record.key := by
  unfold keyList
  rw [keyList_go_mem]
  simp

/-- Helper: the grouping fold never duplicates a key. -/
theorem keyList_go_nodup (rows : List Record) (acc : List Key)
    (hacc : acc.Nodup) :
    (rows.foldl
      (fun ks r => if r.key ∈ ks then ks else ks ++ [r.key]) acc).Nodup := by
  induction rows generalizing acc with
  | nil => simpa using hacc
  | cons r rows ih =>
    simp only [List.foldl_cons]
    by_cases h : r.key ∈ acc
    · rw [if_pos h]
      exact ih acc hacc
    · rw [if_neg h]
      refine ih _ ?_
      simp [List.nodup_append, hacc, h]

theorem keyList_nodup (rows : List Record) : (keyList rows).Nodup :=
  keyList_go_nodup rows [] List.nodup_nil

/-- Helper: a `filterMap` that never drops is a `map`. -/
theorem filterMap_eq_map_of {α β : Type} (l : List α) (g : α → β)
    (fo : α → Option β) (h : ∀ a ∈ l, fo a = some (g a)) :
    l.filterMap fo = l.map g := by
  induction l with
  | nil => rfl
  | cons a l ih =>
    simp [List.filterMap_cons, h a (by simp),
      ih fun b hb => h b (by simp [hb])]

/-- Helper: an observed key has a nonempty group. -/
theorem filter_key_length_pos {rows : List Record} {k : Key}
    (hk : k ∈ rows.map Record.key) :
    (rows.filter fun r => decide (r.key = k)).length ≠ 0 := by
  obtain ⟨r, hr, hkey⟩ := List.mem_map.mp hk
  have hmem : r ∈ rows.filter fun r => decide (r.key = k) :=
    List.mem_filter.mpr ⟨hr, by simp [hkey]⟩
  intro h0
  rw [List.length_eq_zero] at h0
  rw [h0] at hmem
  exact (List.not_mem_nil r) hmem

/-- Helper: since every observed key has a nonempty group, the
`continue` branch never fires and aggregation is a map over the key list. -/
theorem aggregate_eq_map (rows : List Record) :
    aggregate_results rows = (keyList rows).map fun k =>
      mkAggRow k (rows.filter fun r => decide (r.key = k)) := by
  unfold aggregate_results
  refine filterMap_eq_map_of _ _ _ ?_
  intro k hk
  have h := filter_key_length_pos ((keyList_mem rows k).mp hk)
  dsimp only
  rw [if_neg h]

theorem mkAggRow_key (k : Key) (g : List Record) : (mkAggRow k g).key = k :=
  rfl

/-- Helper: in a duplicate-free list, a member is counted exactly once. -/
theorem countP_eq_one_of_nodup_mem {α : Type} [DecidableEq α] {l : List α}
    {k : α} (hn : l.Nodup) (hm : k ∈ l) :
    (l.countP fun x => decide (x = k)) = 1 := by
  induction l with
  | nil => simp at hm
  | cons a l ih =>
    have ha : a ∉ l := (List.nodup_cons.mp hn).1
    rw [List.countP_cons]
    rcases List.mem_cons.mp hm with rfl | hm'
    · have hz : (l.countP fun x => decide (x = k)) = 0 := by
        rw [List.countP_eq_zero]
        intro x hx
        simp only [decide_eq_true_eq]
        intro hxa
        rw [hxa] at hx
        exact ha hx
      simp [hz]
    · have hak : ¬(a = k) := by
        intro h
        rw [h] at ha
        exact ha hm'
      rw [ih (List.nodup_cons.mp hn).2 hm']
      simp [hak]

/-- C2: for every observed grouping key, exactly one aggregate row is
produced; its `n_samples` is the full group size, `prop_superrational` is
the superrational count over the full group size, `prop_send` is null
exactly when no record of the group carries a non-null `is_send`, and
otherwise equals the `is_send`-true count over the non-null `is_send`
count. -/
theorem aggregate_group_stats (rows : List Record) (k : Key)
    (hk : k ∈ rows.map Record.key) :
    ((aggregate_results rows).countP fun a => decide (a.key = k)) = 1 ∧
    ∀ a ∈ aggregate_results rows, a.key = k →
      a.n_samples = (rows.filter fun r => decide (r.key = k)).length ∧
      a.prop_superrational =
        (((rows.filter fun r => decide (r.key = k)).countP
            fun r => r.is_superrational : ℚ)) / ((a.n_samples : ℚ)) ∧
      (a.prop_send = none ↔
        ∀ r ∈ rows.filter fun r => decide (r.key = k), r.is_send = none) ∧
      ∀ q : ℚ, a.prop_send = some q →
        0 < ((rows.filter fun r => decide (r.key = k)).countP
              fun r => r.is_send.isSome) ∧
        q = (((rows.filter fun r => decide (r.key = k)).countP
              fun r => decide (r.is_send = some true) : ℚ)) /
            (((rows.filter fun r => decide (r.key = k)).countP
              fun r => r.is_send.isSome : ℚ)) := by
  have hkl : k ∈ keyList rows := (keyList_mem rows k).mpr hk
  constructor
  · rw [aggregate_eq_map, List.countP_map]
    have hfn : ((fun a => decide (a.key = k)) ∘ fun k' =>
        mkAggRow k' (rows.filter fun r => decide (r.key = k'))) =
        fun k' => decide (k' = k) := by
      funext k'
      simp [Function.comp, mkAggRow_key]
    rw [hfn]
    exact countP_eq_one_of_nodup_mem (keyList_nodup rows) hkl
  · intro a ha hak
    rw [aggregate_eq_map] at ha
    obtain ⟨k', hk', rfl⟩ := List.mem_map.mp ha
    rw [mkAggRow_key] at hak
    subst hak
    refine ⟨rfl, rfl, ?_, ?_⟩
    · show (if (rows.filter fun r => decide (r.key = k')).any
          (fun r => r.is_send.isSome) then _ else none) = none ↔ _
      by_cases hany : (rows.filter fun r => decide (r.key = k')).any
          (fun r => r.is_send.isSome) = true
      · rw [if_pos hany]
        obtain ⟨r, hr, hrs⟩ := List.any_eq_true.mp hany
        constructor
        · intro h
          simp at h
        · intro hall
          rw [hall r hr] at hrs
          simp at hrs
      · rw [if_neg hany]
        rw [Bool.not_eq_true, List.any_eq_false] at hany
        constructor
        · intro _ r hr
          have hno := hany r hr
          cases hs : r.is_send with
          | none => rfl
          | some b =>
              rw [hs] at hno
              simp at hno
        · intro _
          rfl
    · intro q hq
      show _ ∧ q = _
      by_cases hany : (rows.filter fun r => decide (r.key = k')).any
          (fun r => r.is_send.isSome) = true
      · have hq' : (if 0 < (rows.filter fun r =>
            decide (r.key = k')).countP (fun r => r.is_send.isSome) then
              (((rows.filter fun r => decide (r.key = k')).countP
                fun r => decide (r.is_send = some true) : ℚ)) /
                (((rows.filter fun r => decide (r.key = k')).countP
                  fun r => r.is_send.isSome : ℚ))
            else 0) = q := by
          have := hq
          simp only [mkAggRow] at this
          rw [if_pos hany] at this
          exact Option.some_inj.mp this
        have hpos : 0 < (rows.filter fun r =>
            decide (r.key = k')).countP (fun r => r.is_send.isSome) := by
          rw [List.countP_pos_iff]
          obtain ⟨r, hr, hrs⟩ := List.any_eq_true.mp hany
          exact ⟨r, hr, hrs⟩
        rw [if_pos hpos] at hq'
        exact ⟨hpos, hq'.symm⟩
      · have : (mkAggRow k' (rows.filter fun r =>
            decide (r.key = k'))).prop_send = none := by
          simp only [mkAggRow]
          rw [if_neg hany]
        rw [this] at hq
        exact absurd hq (by simp)

/-- C2 witness: the group statistics at a concrete two-record run, for the
key carried by `recA`. -/
theorem aggregate_group_stats_witness :
    ((aggregate_results [recA, recB]).countP fun a =>
      decide (a.key = ("a", "p", "m"))) = 1 ∧
    ∀ a ∈ aggregate_results [recA, recB], a.key = ("a", "p", "m") →
      a.n_samples = ([recA, recB].filter fun r =>
        decide (r.key = ("a", "p", "m"))).length ∧
      a.prop_superrational =
        ((([recA, recB].filter fun r =>
            decide (r.key = ("a", "p", "m"))).countP
            fun r => r.is_superrational : ℚ)) / ((a.n_samples : ℚ)) ∧
      (a.prop_send = none ↔
        ∀ r ∈ [recA, recB].filter fun r => decide (r.key = ("a", "p", "m")),
          r.is_send = none) ∧
      ∀ q : ℚ, a.prop_send = some q →
        0 < (([recA, recB].filter fun r =>
              decide (r.key = ("a", "p", "m"))).countP
              fun r => r.is_send.isSome) ∧
        q = ((([recA, recB].filter fun r =>
              decide (r.key = ("a", "p", "m"))).countP
              fun r => decide (r.is_send = some true) : ℚ)) /
            ((([recA, recB].filter fun r =>
              decide (r.key = ("a", "p", "m"))).countP
              fun r => r.is_send.isSome : ℚ)) :=
  aggregate_group_stats [recA, recB] ("a", "p", "m") (by decide)

/-- Helper: permuting the records permutes the observed key list. -/
theorem keyList_perm {rows1 rows2 : List Record} (h : rows1.Perm rows2) :
    (keyList rows1).Perm (keyList rows2) := by
  rw [List.perm_ext_iff_of_nodup (keyList_nodup rows1) (keyList_nodup rows2)]
  intro k
  rw [keyList_mem, keyList_mem]
  exact (h.map Record.key).mem_iff

/-- Helper: the aggregate of a group depends only on the group's multiset
of records. -/
theorem mkAggRow_perm (k : Key) {g1 g2 : List Record} (h : g1.Perm g2) :
    mkAggRow k g1 = mkAggRow k g2 := by
  have hany : g1.any (fun r => r.is_send.isSome) =
      g2.any (fun r => r.is_send.isSome) := by
    by_cases h1 : g1.any (fun r => r.is_send.isSome) = true
    · rw [h1, eq_comm, List.any_eq_true]
      obtain ⟨r, hr, hp⟩ := List.any_eq_true.mp h1
      exact ⟨r, h.mem_iff.mp hr, hp⟩
    · rw [Bool.not_eq_true] at h1
      rw [h1, eq_comm, List.any_eq_false]
      rw [List.any_eq_false] at h1
      intro x hx
      exact h1 x (h.mem_iff.mpr hx)
  unfold mkAggRow
  rw [h.length_eq, h.countP_eq, h.countP_eq, h.countP_eq, hany]

/-- Helper: aggregation commutes with permutation of the record list, up to
permutation of the rows. -/
theorem aggregate_perm {rows1 rows2 : List Record} (h : rows1.Perm rows2) :
    (aggregate_results rows1).Perm (aggregate_results rows2) := by
  have hmap : ∀ k ∈ keyList rows2,
      mkAggRow k (rows1.filter fun r => decide (r.key = k)) =
        mkAggRow k (rows2.filter fun r => decide (r.key = k)) :=
    fun k _ => mkAggRow_perm k (h.filter _)
  rw [aggregate_eq_map, aggregate_eq_map, ← List.map_congr_left hmap]
  exact (keyList_perm h).map _

/-- Helper: aggregate rows carry pairwise-distinct keys. -/
theorem aggregate_keys_nodup (rows : List Record) :
    ((aggregate_results rows).map AggRow.key).Nodup := by
  rw [aggregate_eq_map, List.map_map]
  have hid : (AggRow.key ∘ fun k =>
      mkAggRow k (rows.filter fun r => decide (r.key = k))) = id := by
    funext k
    simp [Function.comp, mkAggRow_key]
  rw [hid, List.map_id]
  exact keyList_nodup rows

theorem sortRows_sorted (l : List AggRow) : List.Sorted rowLe (sortRows l) :=
  List.sorted_insertionSort rowLe l

theorem sortRows_perm (l : List AggRow) : (sortRows l).Perm l :=
  List.perm_insertionSort rowLe l

/-- Helper: two pairwise facts combine pointwise. -/
theorem pairwise_combine {α : Type} {R S : α → α → Prop} {l : List α}
    (hR : l.Pairwise R) (hS : l.Pairwise S) :
    l.Pairwise fun a b => R a b ∧ S a b := by
  induction l with
  | nil => exact List.Pairwise.nil
  | cons a l ih =>
    rw [List.pairwise_cons] at hR hS ⊢
    exact ⟨fun b hb => ⟨hR.1 b hb, hS.1 b hb⟩, ih hR.2 hS.2⟩

theorem lexKey_inj {k1 k2 : Key} (h : lexKey k1 = lexKey k2) : k1 = k2 := by
  unfold lexKey at h
  have h' := toLex.injective h
  have h1 : k1.1 = k2.1 := congrArg Prod.fst h'
  have h2 : toLex k1.2 = toLex k2.2 := congrArg Prod.snd h'
  exact Prod.ext h1 (toLex.injective h2)

/-- Helper: a `rowLe`-sorted list with pairwise-distinct keys is strictly
sorted. -/
theorem sorted_lt_of_le_nodup {l : List AggRow}
    (hs : List.Sorted rowLe l) (hn : (l.map AggRow.key).Nodup) :
    List.Sorted rowLt l := by
  have hpw : l.Pairwise fun a b => a.key ≠ b.key := List.pairwise_map.mp hn
  exact (pairwise_combine hs hpw).imp fun hab =>
    lt_of_le_of_ne hab.1 fun heq => hab.2 (lexKey_inj heq)

/-- Helper: sorting two permuted row lists with distinct keys gives the same
list. -/
theorem sortRows_eq_of_perm {l1 l2 : List AggRow} (h : l1.Perm l2)
    (hn1 : (l1.map AggRow.key).Nodup) :
    sortRows l1 = sortRows l2 := by
  have hp : (sortRows l1).Perm (sortRows l2) :=
    ((sortRows_perm l1).trans h).trans (sortRows_perm l2).symm
  have hn1' : ((sortRows l1).map AggRow.key).Nodup :=
    ((sortRows_perm l1).map AggRow.key).nodup_iff.mpr hn1
  have hn2 : (l2.map AggRow.key).Nodup := ((h.map AggRow.key).nodup_iff).mp hn1
  have hn2' : ((sortRows l2).map AggRow.key).Nodup :=
    ((sortRows_perm l2).map AggRow.key).nodup_iff.mpr hn2
  exact List.eq_of_perm_of_sorted hp
    (sorted_lt_of_le_nodup (sortRows_sorted l1) hn1')
    (sorted_lt_of_le_nodup (sortRows_sorted l2) hn2')

/-- C8: the emitted table starts with the fixed six-column header, its data
rows are sorted ascending lexicographically by (game_key, player_variant,
move_order_variant), and the whole output is invariant under any
permutation of the input record list (re-running the pure pipeline on the
same input trivially reproduces it byte for byte). -/
theorem output_deterministic_sorted (rows1 rows2 : List Record)
    (h : rows1.Perm rows2) :
    pipelineOutput rows1 = pipelineOutput rows2 ∧
    List.Sorted rowLe (sortRows (aggregate_results rows1)) ∧
    (pipelineOutput rows1).head? = some headerCells := by
  refine ⟨?_, sortRows_sorted _, rfl⟩
  unfold pipelineOutput emitCSV
  rw [sortRows_eq_of_perm (aggregate_perm h) (aggregate_keys_nodup rows1)]

/-- C8 witness: the pipeline output at a concrete two-record list and its
transposition. -/
theorem output_deterministic_sorted_witness :
    pipelineOutput [recA, recB] = pipelineOutput [recB, recA] ∧
    List.Sorted rowLe (sortRows (aggregate_results [recA, recB])) ∧
    (pipelineOutput [recA, recB]).head? = some headerCells :=
  output_deterministic_sorted [recA, recB] [recB, recA]
    (List.Perm.swap recB recA [])
